import Mathlib

/-
Verification of the PyDBrave migration engine against its specification.

The development shallowly embeds the claim-relevant parts of the source:
  - src/migrator/pydb_oracle.py      (set_connection_params)
  - src/migrator/pydb_migrator.py    (migrate, migrate_metadata, migrate_plain_data,
                                      setup_target_table)
  - src/migration/steps/pydb_metadata.py (migrate_metadata filtering, migrate_view)

Python mutable error lists become explicit error-list values; database calls
(SQLAlchemy engines, pypomes db helpers) become parameters describing their
outcomes; Python dicts with string keys become association lists; Python
strings become Lean Strings or List Char where character-level reasoning is
needed.  Every definition is computable so claims can be evaluated on
concrete inputs.
-/

/-- An entry produced by validate_format_error: numeric code plus message text. -/
structure Err where
  code : Nat
  msg : String
deriving DecidableEq

/-- Python str.lower, restricted to the ASCII case mapping used by the
    schema/table names in play. -/
def pyLower (s : String) : String := String.mk (s.data.map Char.toLower)

/-- Python ",".join-style joining of a list of strings. -/
def pyJoin (sep : String) : List String → String
  | [] => ("")
  | [x] => x
  | x :: y :: xs => x ++ sep ++ pyJoin sep (y :: xs)

/-- Python truthiness of an optional string (None and "" are falsy). -/
def pyTruthy : Option String → Bool
  | none => false
  | some s => !(s.isEmpty)

/-- Python str.isnumeric on the ASCII digit strings relevant to ports. -/
def pyIsNumeric (s : String) : Bool := !(s.isEmpty) && s.data.all Char.isDigit

/-- Python int(s) on a numeric string. -/
def pyInt (s : String) : Nat := s.data.foldl (fun n c => n * 10 + (c.toNat - 48)) 0

/-! ## Oracle connection parameters (src/migrator/pydb_oracle.py) -/

/-- The module-level ORCL_DB_* variables of pydb_oracle.py. -/
structure OrclParams where
  name : Option String
  user : Option String
  pwd : Option String
  host : Option String
  port : Option Nat
  client : Option String
deriving DecidableEq

/-- The request parameters read by set_connection_params (scheme.get("db-...")). -/
structure OrclScheme where
  dbName : Option String
  dbUser : Option String
  dbPwd : Option String
  dbHost : Option String
  dbPort : Option String
  dbClient : Option String
  dbDriver : Option String
deriving DecidableEq

/-- pydb_oracle.set_connection_params (lines 72-117): appends error 113 when the
    SQLServer-only db-driver attribute is present, sets ORCL_DB_PORT from a numeric
    db-port (or appends error 128 when non-numeric), and updates the remaining
    parameters only when the whole errors list is empty. -/
def setConnectionParams (errs0 : List Err) (st : OrclParams) (sc : OrclScheme) :
    List Err × OrclParams :=
  let errs1 :=
    if pyTruthy sc.dbDriver then
      errs0 ++ [⟨113, ("Attribute not applicable for Oracle: @db-driver")⟩]
    else errs0
  let step2 :=
    if pyTruthy sc.dbPort then
      if pyIsNumeric (sc.dbPort.getD ("")) then
        (errs1, { st with port := some (pyInt (sc.dbPort.getD (""))) })
      else
        (errs1 ++ [⟨128, ("Invalid value int: @ORCL_DB_PORT")⟩], st)
    else (errs1, st)
  if step2.1 = [] then
    (step2.1,
      { step2.2 with
        name := if pyTruthy sc.dbName then sc.dbName else step2.2.name
        user := if pyTruthy sc.dbUser then sc.dbUser else step2.2.user
        pwd := if pyTruthy sc.dbPwd then sc.dbPwd else step2.2.pwd
        client := if pyTruthy sc.dbClient then sc.dbClient else step2.2.client
        host := if pyTruthy sc.dbHost then sc.dbHost else step2.2.host })
  else (step2.1, step2.2)

/-- C10: a call to the Oracle set_connection_params that records an error (an
    inapplicable db-driver attribute, or a non-numeric db-port) leaves the stored
    name, user, password, host and client unchanged, records at least one error,
    and still updates the stored port whenever a numeric db-port was supplied. -/
theorem c10_error_call_frame (errs0 : List Err) (st : OrclParams) (sc : OrclScheme)
    (herr : pyTruthy sc.dbDriver = true ∨
      (pyTruthy sc.dbPort = true ∧ pyIsNumeric (sc.dbPort.getD ("")) = false)) :
    ((setConnectionParams errs0 st sc).2.name = st.name
      ∧ (setConnectionParams errs0 st sc).2.user = st.user
      ∧ (setConnectionParams errs0 st sc).2.pwd = st.pwd
      ∧ (setConnectionParams errs0 st sc).2.host = st.host
      ∧ (setConnectionParams errs0 st sc).2.client = st.client)
    ∧ (setConnectionParams errs0 st sc).1 ≠ []
    ∧ (pyTruthy sc.dbPort = true → pyIsNumeric (sc.dbPort.getD ("")) = true →
        (setConnectionParams errs0 st sc).2.port = some (pyInt (sc.dbPort.getD ("")))) := by
  unfold setConnectionParams
  rcases herr with hdrv | ⟨hport, hnum⟩
  · by_cases hp : pyTruthy sc.dbPort = true
    · by_cases hn : pyIsNumeric (sc.dbPort.getD ("")) = true
      · simp [hdrv, hp, hn]
      · simp [hdrv, hp, hn]
    · simp [hdrv, hp]
  · by_cases hdrv : pyTruthy sc.dbDriver = true
    · simp [hdrv, hport, hnum]
    · simp [hdrv, hport, hnum]

/-- Witness for C10 at a concrete call: an inapplicable db-driver together with a
    numeric db-port 1522; the frame holds and the port is updated to 1522. -/
theorem c10_error_call_frame_witness :
    (pyTruthy (some ("msodbc")) = true ∨
      (pyTruthy (some ("1522")) = true ∧ pyIsNumeric ((some ("1522")).getD ("")) = false))
    ∧ ((setConnectionParams []
          ⟨some ("db"), some ("u"), some ("p"), some ("h"), some 1521, none⟩
          ⟨none, none, none, none, some ("1522"), none, some ("msodbc")⟩).2.name = some ("db")
        ∧ (setConnectionParams []
          ⟨some ("db"), some ("u"), some ("p"), some ("h"), some 1521, none⟩
          ⟨none, none, none, none, some ("1522"), none, some ("msodbc")⟩).2.port = some 1522) :=
  ⟨Or.inl (by decide),
    by
      have h := c10_error_call_frame []
        ⟨some ("db"), some ("u"), some ("p"), some ("h"), some 1521, none⟩
        ⟨none, none, none, none, some ("1522"), none, some ("msodbc")⟩ (Or.inl (by decide))
      exact ⟨h.1.1, (h.2.2 (by decide) (by decide)).trans (by decide)⟩⟩

/-! ## Plain-path column selection (src/migrator/pydb_migrator.py lines 271-274) -/

/-- A Python dict with string keys and values, as built for each column, with
    dict.get returning an Option. -/
def pyGet (d : List (String × String)) (k : String) : Option String :=
  (d.find? (fun p => p.1 == k)).map Prod.snd

/-- Modelled from the spec: pydb_types.is_large_binary (module pydb_types is not
    under src/).  Spec section 4.2 item 4 lists the LOB source types: BLOB, CLOB,
    RAW, long varbinary, long varchar, XML, image, large bytea.  A missing value
    (Python None, from dict.get on an absent key) is not any of them, hence not
    large-binary. -/
def isLargeBinary : Option String → Bool
  | none => false
  | some t => List.elem t
      [("BLOB"), ("CLOB"), ("RAW"), ("LONG VARBINARY"), ("LONG VARCHAR"),
       ("XML"), ("IMAGE"), ("BYTEA")]

/-- migrate_metadata (pydb_migrator.py lines 196-201) stores each column of a
    migrated table as a dict with keys "name" and "source-type". -/
def columnEntry (nm srcType : String) : List (String × String) :=
  [(("name"), nm), (("source-type"), srcType)]

/-- migrate_plain_data (pydb_migrator.py lines 272-274): the column-name list used
    for the bulk SELECT and bulk INSERT.  The comprehension filters on
    column.get("source_type") - an underscore key - although the entries store the
    type under the hyphen key "source-type". -/
def columnNames (tableColumns : List (List (String × String))) : List (Option String) :=
  (tableColumns.filter
    (fun c => !(isLargeBinary (pyGet c ("source_type"))))).map
      (fun c => pyGet c ("name"))

/-- C2: the plain path is claimed to exclude every LOB-flagged column from the
    bulk column list.  The code looks the type up under the key "source_type"
    while migrate_metadata stored it under "source-type", so the lookup always
    yields None and no column is ever excluded: a table with a BLOB column keeps
    that column in the bulk statements, although BLOB is a large-binary type. -/
theorem c2_lob_column_not_excluded :
    columnNames [columnEntry ("id") ("INTEGER"), columnEntry ("photo") ("BLOB")]
        = [some ("id"), some ("photo")]
      ∧ isLargeBinary (some ("BLOB")) = true
      ∧ pyGet (columnEntry ("photo") ("BLOB")) ("source_type") = none
      ∧ pyGet (columnEntry ("photo") ("BLOB")) ("source-type") = some ("BLOB") := by
  decide

/-! ## Column wrap-up after type translation (pydb_migrator.py lines 346-385) -/

/-- A SQLAlchemy Column as touched by setup_target_table: its type string, its
    server_default and its default expression. -/
structure PyColumn where
  name : String
  colType : String
  serverDefault : Option String
  colDefault : Option String
deriving DecidableEq

/-- setup_target_table per-column wrap-up (pydb_migrator.py lines 366-383): sets
    the translated type, always clears server_default, then evaluates
    `column.default is not None and column.lower() in ["sysdate", "systime"]`.
    A SQLAlchemy Column object has no method named lower, so whenever the default
    is not None the call `column.lower()` raises AttributeError; the surrounding
    try/except catches it and appends error 104, leaving the default unchanged.
    When the default is None the conjunction short-circuits and nothing is raised. -/
def adjustColumn (targetType : String) (c : PyColumn) : PyColumn × List Err :=
  let c1 := { c with colType := targetType, serverDefault := none }
  match c1.colDefault with
  | none => (c1, [])
  | some _ => (c1, [⟨104, ("AttributeError: Column object has no attribute lower")⟩])

/-- C7: the claim says a recognized session-function default such as sysdate is
    replaced by null.  On the code, any non-null default triggers the
    AttributeError path: the server_default is stripped as claimed, but the
    default stays "sysdate" and an unexpected-error 104 is recorded instead. -/
theorem c7_sysdate_default_not_nulled :
    adjustColumn ("timestamp") ⟨("created"), ("DATE"), some ("sysdate"), some ("sysdate")⟩
        = (⟨("created"), ("timestamp"), none, some ("sysdate")⟩,
           [⟨104, ("AttributeError: Column object has no attribute lower")⟩])
      ∧ (adjustColumn ("timestamp")
          ⟨("created"), ("DATE"), some ("sysdate"), some ("sysdate")⟩).1.colDefault ≠ none := by
  decide

/-! ## Plain-data batch loop (src/migrator/pydb_migrator.py lines 253-321)

The source table is a finite row list; a paginated SELECT at offset o returns
the next batch of rows unless the environment injects a SELECT error at that
offset; a bulk INSERT of the batch starting at offset o commits unless the
environment injects an INSERT error there.  pypomes db helpers append their
error to whichever error list they are handed and return no data on failure. -/

/-- db_select_all over build_bulk_select_stmt: the errors it would append, and the
    rows it returns (none on failure). -/
def dbSelectAll (rows : List Nat) (selErr : Nat → Option Err) (batch off : Nat) :
    List Err × List Nat :=
  match selErr off with
  | some e => ([e], [])
  | none => ([], (rows.drop off).take batch)

/-- The state the while-loop of migrate_plain_data ends with for one table. -/
structure LoopOut where
  cnt : Nat
  off : Nat
  opErrs : List Err
  commits : List Nat
deriving DecidableEq

/-- The while-loop of migrate_plain_data (lines 288-310), fuel-indexed to stay
    structural: while op_errors is empty and the fetched batch is non-empty,
    bulk-insert the batch (on error append to op_errors and stop), otherwise
    count it as committed, advance the offset by the batch length and fetch the
    next batch with errors directed to op_errors.  commits records the length of
    each committed batch in order.  Any fuel of at least rows.length + 1 is
    enough, since every committed batch is non-empty and advances the offset. -/
def plainLoop (rows : List Nat) (selErr insErr : Nat → Option Err) (batch : Nat) :
    Nat → Nat → Nat → List Err → List Nat → LoopOut
  | 0, off, cnt, opErrs, _ => ⟨cnt, off, opErrs, []⟩
  | fuel + 1, off, cnt, opErrs, bulk =>
    if opErrs = [] ∧ bulk ≠ [] then
      match insErr off with
      | some e => ⟨cnt, off, opErrs ++ [e], []⟩
      | none =>
        let nxt := dbSelectAll rows selErr batch (off + bulk.length)
        let out := plainLoop rows selErr insErr batch fuel (off + bulk.length)
          (cnt + bulk.length) (opErrs ++ nxt.1) nxt.2
        { out with commits := bulk.length :: out.commits }
    else ⟨cnt, off, opErrs, []⟩

/-- The per-table record written by migrate_plain_data: count, status, the errors
    that went to the OUTER errors list, and the local op_errors. -/
structure TableOut where
  cnt : Nat
  off : Nat
  status : String
  outerErrs : List Err
  opErrs : List Err
  commits : List Nat
deriving DecidableEq

/-- migrate_plain_data for one migrated table (lines 263-318).  The first
    db_select_all call is made with errors=errors - the OUTER errors list - while
    every subsequent call inside the loop uses the local op_errors; the status is
    computed from op_errors alone: "partial" or "none" when op_errors is
    non-empty (depending on whether anything was counted), else "full". -/
def migrateTableData (rows : List Nat) (selErr insErr : Nat → Option Err)
    (batch : Nat) : TableOut :=
  let first := dbSelectAll rows selErr batch 0
  let out := plainLoop rows selErr insErr batch (rows.length + 1) 0 0 [] first.2
  let status :=
    if out.opErrs ≠ [] then (if out.cnt ≠ 0 then ("partial") else ("none"))
    else ("full")
  ⟨out.cnt, out.off, status, first.1, out.opErrs, out.commits⟩

/-- C1: claimed: status "full" exactly when the loop ended via an empty fetch
    with no errors, including no error on any SELECT.  Code bug: the first
    SELECT's error goes to the outer errors list (db_select_all is called with
    errors=errors instead of errors=op_errors), so when the very first SELECT
    fails the loop never runs, op_errors stays empty and the table is recorded
    "full" with count 0 even though its SELECT errored - the claim requires
    "none" here. -/
theorem c1_first_select_error_yields_full :
    migrateTableData [10, 20, 30]
        (fun off => if off = 0 then some ⟨104, ("select failed")⟩ else none)
        (fun _ => none) 3
      = ⟨0, 0, ("full"), [⟨104, ("select failed")⟩], [], []⟩ := by
  decide

/-- Each committed batch adds its length to both the running count and the
    offset: the loop result counts and advances exactly by the committed batch
    lengths. -/
theorem plainLoop_cnt_off (rows : List Nat) (selErr insErr : Nat → Option Err)
    (batch : Nat) :
    ∀ fuel off cnt opErrs bulk,
      (plainLoop rows selErr insErr batch fuel off cnt opErrs bulk).cnt
          = cnt + (plainLoop rows selErr insErr batch fuel off cnt opErrs bulk).commits.sum
        ∧ (plainLoop rows selErr insErr batch fuel off cnt opErrs bulk).off
          = off + (plainLoop rows selErr insErr batch fuel off cnt opErrs bulk).commits.sum := by
  intro fuel
  induction fuel with
  | zero => intro off cnt opErrs bulk; simp [plainLoop]
  | succ fl ih =>
    intro off cnt opErrs bulk
    simp only [plainLoop]
    split
    · cases h : insErr off with
      | some e => simp
      | none =>
        have h2 := ih (off + bulk.length) (cnt + bulk.length)
          (opErrs ++ (dbSelectAll rows selErr batch (off + bulk.length)).1)
          (dbSelectAll rows selErr batch (off + bulk.length)).2
        simp only [List.sum_cons]
        omega
    · simp

/-- C3: generally, the migrated count and the final paging offset both equal the
    sum of the committed batch lengths; concretely, with BATCH_SIZE 3 and 7
    source rows and no failures there are three commits of 3, 3 and 1 rows with
    status "full" and count 7, and an INSERT failure on the third batch
    (after two commits) leaves commits 3 and 3, count 6 and status "partial". -/
theorem c3_commit_increments_and_scenario :
    (∀ (rows : List Nat) (selErr insErr : Nat → Option Err) (batch : Nat),
        (migrateTableData rows selErr insErr batch).cnt
            = (migrateTableData rows selErr insErr batch).commits.sum
          ∧ (migrateTableData rows selErr insErr batch).off
            = (migrateTableData rows selErr insErr batch).commits.sum)
      ∧ migrateTableData (List.range 7) (fun _ => none) (fun _ => none) 3
          = ⟨7, 7, ("full"), [], [], [3, 3, 1]⟩
      ∧ migrateTableData (List.range 7) (fun _ => none)
          (fun off => if off = 6 then some ⟨104, ("insert failed")⟩ else none) 3
          = ⟨6, 6, ("partial"), [], [⟨104, ("insert failed")⟩], [3, 3]⟩ := by
  refine ⟨?_, by decide, by decide⟩
  intro rows selErr insErr batch
  have h := plainLoop_cnt_off rows selErr insErr batch (rows.length + 1) 0 0 []
    (dbSelectAll rows selErr batch 0).2
  unfold migrateTableData
  simpa using h

/-! ## Session gating around the plain-data phase (pydb_migrator.py lines 37-54) -/

/-- The observable actions of migrate's plain-data phase on the target session. -/
inductive Ev where
  | connect : Ev
  | disable : Ev
  | restore : Ev
  | close : Ev
  | tableDone (name : String) : Ev
deriving DecidableEq

/-- What one migrated table contributes to the phase: its name, source rows and
    injected SELECT/INSERT failures. -/
structure TableSpec where
  tname : String
  rows : List Nat
  selErr : Nat → Option Err
  insErr : Nat → Option Err

/-- The phase result: the event trace and the op_errors list that migrate extends
    into the request errors. -/
structure PhaseOut where
  events : List Ev
  errs : List Err

/-- migrate (pydb_migrator.py lines 39-52): connect to the target; if the
    connection was obtained, disable session restrictions once, run
    migrate_plain_data over all migrated tables only when disabling recorded no
    error, then unconditionally restore session restrictions and close the
    connection.  When the connection fails only its error is recorded. -/
def migratePlainPhase (connErr : Option Err) (disableErrs : List Err)
    (tables : List TableSpec) (batch : Nat) : PhaseOut :=
  match connErr with
  | some e => ⟨[], [e]⟩
  | none =>
    if disableErrs = [] then
      let outs := tables.map
        (fun t => (t.tname, migrateTableData t.rows t.selErr t.insErr batch))
      ⟨[Ev.connect, Ev.disable]
          ++ outs.map (fun o => Ev.tableDone o.1) ++ [Ev.restore, Ev.close],
        (outs.map (fun o => o.2.outerErrs ++ o.2.opErrs)).flatten⟩
    else
      ⟨[Ev.connect, Ev.disable, Ev.restore, Ev.close], disableErrs⟩

/-- C9: whenever the connection is obtained the restrictions are disabled exactly
    once for the whole phase, every event between the disable and the restore is
    a per-table event (never another disable/restore), and they are restored
    exactly once, immediately before the close, on both the clean path and the
    paths where disabling or any per-table batch recorded errors; when the
    connection is not obtained they are never disabled nor restored. -/
theorem c9_session_gating (connErr : Option Err) (disableErrs : List Err)
    (tables : List TableSpec) (batch : Nat) :
    (connErr = none →
        ((migratePlainPhase connErr disableErrs tables batch).events.count Ev.disable = 1
          ∧ (migratePlainPhase connErr disableErrs tables batch).events.count Ev.restore = 1
          ∧ ∃ mid, (migratePlainPhase connErr disableErrs tables batch).events
                = [Ev.connect, Ev.disable] ++ mid ++ [Ev.restore, Ev.close]
              ∧ ∀ e ∈ mid, ∃ nm, e = Ev.tableDone nm))
      ∧ (∀ e, connErr = some e →
          Ev.disable ∉ (migratePlainPhase connErr disableErrs tables batch).events
            ∧ Ev.restore ∉ (migratePlainPhase connErr disableErrs tables batch).events) := by
  constructor
  · intro hc
    subst hc
    by_cases hd : disableErrs = []
    · refine ⟨?_, ?_, ⟨(tables.map
        (fun t => (t.tname, migrateTableData t.rows t.selErr t.insErr batch))).map
          (fun o => Ev.tableDone o.1), ?_, ?_⟩⟩
      · simp [migratePlainPhase, hd, List.count_append, List.count_eq_zero]
      · simp [migratePlainPhase, hd, List.count_append, List.count_eq_zero]
      · simp [migratePlainPhase, hd]
      · intro e he
        simp only [List.mem_map] at he
        obtain ⟨o, _, rfl⟩ := he
        exact ⟨o.1, rfl⟩
    · refine ⟨?_, ?_, ⟨[], ?_, ?_⟩⟩
      · simp [migratePlainPhase, hd]
      · simp [migratePlainPhase, hd]
      · simp [migratePlainPhase, hd]
      · intro e he
        simp at he
  · intro e hc
    subst hc
    simp [migratePlainPhase]

/-- Witness for C9 on a connected run with one failing table. -/
theorem c9_session_gating_witness :
    (migratePlainPhase none []
        [⟨("t1"), [1, 2], fun _ => none,
          fun _ => some ⟨104, ("ins")⟩⟩] 1).events.count Ev.disable = 1
      ∧ (migratePlainPhase none []
        [⟨("t1"), [1, 2], fun _ => none,
          fun _ => some ⟨104, ("ins")⟩⟩] 1).events.count Ev.restore = 1
      ∧ ∃ mid, (migratePlainPhase none []
          [⟨("t1"), [1, 2], fun _ => none,
            fun _ => some ⟨104, ("ins")⟩⟩] 1).events
            = [Ev.connect, Ev.disable] ++ mid ++ [Ev.restore, Ev.close]
          ∧ ∀ e ∈ mid, ∃ nm, e = Ev.tableDone nm :=
  (c9_session_gating none []
    [⟨("t1"), [1, 2], fun _ => none, fun _ => some ⟨104, ("ins")⟩⟩] 1).1 rfl

/-! ## Target DDL in migrate_metadata (src/migrator/pydb_migrator.py lines 85-250) -/

/-- DDL-relevant actions migrate_metadata performs against the target engine. -/
inductive MEv where
  | stmt (s : String) : MEv
  | probeTarget : MEv
  | createTables : MEv
deriving DecidableEq

/-- The schema-name resolution loops of migrate_metadata: the first catalog name
    matching the wanted schema case-insensitively. -/
def findSchema (names : List String) (wanted : String) : Option String :=
  names.find? (fun n => pyLower wanted == pyLower n)

/-- The DROP statement built at line 163. -/
def dropStmt (toSchema tbl : String) : String :=
  ("DROP TABLE IF EXISTS ") ++ toSchema ++ (".") ++ tbl

/-- The CREATE SCHEMA statement built at line 170. -/
def createSchemaStmt (targetSchema user : String) : String :=
  ("CREATE SCHEMA ") ++ targetSchema ++ (" AUTHORIZATION ") ++ user

/-- Result of the target-side part of migrate_metadata: the ordered action trace
    and the errors appended. -/
structure MetaOut where
  events : List MEv
  errs : List Err
deriving DecidableEq

/-- migrate_metadata (pydb_migrator.py lines 85-250), target-DDL view.  Inputs
    describe the environment: the catalog schema lists returned by the source
    probe and by the two possible target probes, the dependency-sorted reflected
    table list, the requested table list, and the outcomes of each statement
    execution.  Faithful control flow: resolve the source schema (error 119 if
    absent); report unlisted requested tables (error 119); purge the reflected
    tables down to the requested ones; probe the target - if the schema exists,
    drop the candidate tables in reverse order (each drop may error, the loop
    continues) and then create all tables; if not, execute CREATE SCHEMA ...
    AUTHORIZATION, re-probe only when the errors list is still empty, and either
    proceed to create the tables or append error 104 and create nothing.
    Incidental per-column errors of setup_target_table are modelled separately
    (adjustColumn) and omitted from this trace. -/
def migrateMetadataRun (sourceSchemas : List String) (sourceSchema : String)
    (sortedTables dataTables : List String)
    (targetSchemas1 targetSchemas2 : List String) (targetSchema user : String)
    (dropErr : String → Option Err) (createSchemaErr createAllErr : Option Err) :
    MetaOut :=
  match findSchema sourceSchemas sourceSchema with
  | none => ⟨[], [⟨119, sourceSchema ++ (": schema not found in source RDBMS")⟩]⟩
  | some _ =>
    let unlisted := dataTables.filter (fun t => !(sortedTables.contains t))
    if unlisted ≠ [] then
      ⟨[], [⟨119, pyJoin (", ") unlisted ++ (": not found in source schema")⟩]⟩
    else
      let sourceTables :=
        if dataTables ≠ [] then sortedTables.filter (fun t => dataTables.contains t)
        else sortedTables
      match findSchema targetSchemas1 targetSchema with
      | some toSchema =>
        ⟨[MEv.probeTarget]
            ++ sourceTables.reverse.map (fun t => MEv.stmt (dropStmt toSchema t))
            ++ [MEv.createTables],
          sourceTables.reverse.filterMap (fun t => dropErr (dropStmt toSchema t))
            ++ createAllErr.toList⟩
      | none =>
        match createSchemaErr with
        | some e =>
          ⟨[MEv.probeTarget, MEv.stmt (createSchemaStmt targetSchema user)],
            [e, ⟨104, ("unable to create schema in RDBMS")⟩]⟩
        | none =>
          match findSchema targetSchemas2 targetSchema with
          | some _ =>
            ⟨[MEv.probeTarget, MEv.stmt (createSchemaStmt targetSchema user),
                MEv.probeTarget, MEv.createTables],
              createAllErr.toList⟩
          | none =>
            ⟨[MEv.probeTarget, MEv.stmt (createSchemaStmt targetSchema user),
                MEv.probeTarget],
              [⟨104, ("unable to create schema in RDBMS")⟩]⟩

/-- C4: when the target schema already exists, the trace is exactly one target
    probe, then DROP TABLE IF EXISTS for every selected table in the reverse of
    the dependency-sorted order, and only then the creation of the tables -
    regardless of individual drop failures. -/
theorem c4_drops_in_reverse_topological_order
    (sourceSchemas sortedTables dataTables targetSchemas1 targetSchemas2 : List String)
    (sourceSchema targetSchema user : String) (dropErr : String → Option Err)
    (createSchemaErr createAllErr : Option Err) (fs ts : String)
    (h1 : findSchema sourceSchemas sourceSchema = some fs)
    (h2 : dataTables.filter (fun t => !(sortedTables.contains t)) = [])
    (h3 : findSchema targetSchemas1 targetSchema = some ts) :
    (migrateMetadataRun sourceSchemas sourceSchema sortedTables dataTables
        targetSchemas1 targetSchemas2 targetSchema user dropErr
        createSchemaErr createAllErr).events
      = [MEv.probeTarget]
        ++ ((if dataTables ≠ [] then sortedTables.filter (fun t => dataTables.contains t)
              else sortedTables).reverse.map (fun t => MEv.stmt (dropStmt ts t)))
        ++ [MEv.createTables] := by
  simp only [migrateMetadataRun, h1, h2, h3]
  simp

/-- Witness for C4: two dependency-ordered tables parent, child on an existing
    target schema tgt are dropped child first, parent second, before creation. -/
theorem c4_drops_in_reverse_topological_order_witness :
    (findSchema [("tgt"), ("pub")] ("pub") = some ("pub")
      ∧ ([] : List String).filter
          (fun t => !(([("parent"), ("child")] : List String).contains t)) = []
      ∧ findSchema [("tgt")] ("tgt") = some ("tgt"))
    ∧ (migrateMetadataRun [("tgt"), ("pub")] ("pub") [("parent"), ("child")] []
        [("tgt")] [] ("tgt") ("usr") (fun _ => none) none none).events
      = [MEv.probeTarget,
         MEv.stmt (("DROP TABLE IF EXISTS tgt.child")),
         MEv.stmt (("DROP TABLE IF EXISTS tgt.parent")),
         MEv.createTables] :=
  ⟨⟨by decide, by decide, by decide⟩,
    (c4_drops_in_reverse_topological_order [("tgt"), ("pub")] [("parent"), ("child")]
      [] [("tgt")] [] ("pub") ("tgt") ("usr") (fun _ => none) none none
      ("pub") ("tgt") (by decide) (by decide) (by decide)).trans (by decide)⟩

/-- C5: when the target schema is absent, CREATE SCHEMA ... AUTHORIZATION ... is
    executed; when it reports no error the catalog is re-probed; and when the
    schema is still absent an explicit error 104 is appended and no table is
    created in the target. -/
theorem c5_create_schema_reprobe_failure
    (sourceSchemas sortedTables dataTables targetSchemas1 targetSchemas2 : List String)
    (sourceSchema targetSchema user : String) (dropErr : String → Option Err)
    (createAllErr : Option Err) (fs : String)
    (h1 : findSchema sourceSchemas sourceSchema = some fs)
    (h2 : dataTables.filter (fun t => !(sortedTables.contains t)) = [])
    (h3 : findSchema targetSchemas1 targetSchema = none)
    (h5 : findSchema targetSchemas2 targetSchema = none) :
    (migrateMetadataRun sourceSchemas sourceSchema sortedTables dataTables
        targetSchemas1 targetSchemas2 targetSchema user dropErr none createAllErr)
      = ⟨[MEv.probeTarget, MEv.stmt (createSchemaStmt targetSchema user),
            MEv.probeTarget],
          [⟨104, ("unable to create schema in RDBMS")⟩]⟩
    ∧ MEv.createTables ∉
        (migrateMetadataRun sourceSchemas sourceSchema sortedTables dataTables
          targetSchemas1 targetSchemas2 targetSchema user dropErr none createAllErr).events := by
  constructor
  · simp only [migrateMetadataRun, h1, h2, h3, h5]
    simp
  · simp only [migrateMetadataRun, h1, h2, h3, h5]
    simp

/-- Witness for C5 with a concrete absent target schema that stays absent. -/
theorem c5_create_schema_reprobe_failure_witness :
    (findSchema [("pub")] ("pub") = some ("pub")
      ∧ ([] : List String).filter
          (fun t => !(([("t1")] : List String).contains t)) = []
      ∧ findSchema [("other")] ("tgt") = none
      ∧ findSchema [("other")] ("tgt") = none)
    ∧ (migrateMetadataRun [("pub")] ("pub") [("t1")] [] [("other")] [("other")]
          ("tgt") ("usr") (fun _ => none) none none)
        = ⟨[MEv.probeTarget, MEv.stmt (("CREATE SCHEMA tgt AUTHORIZATION usr")),
              MEv.probeTarget],
            [⟨104, ("unable to create schema in RDBMS")⟩]⟩ :=
  ⟨⟨by decide, by decide, by decide, by decide⟩,
    ((c5_create_schema_reprobe_failure [("pub")] [("t1")] [] [("other")] [("other")]
      ("pub") ("tgt") ("usr") (fun _ => none) none ("pub")
      (by decide) (by decide) (by decide) (by decide)).1).trans (by decide)⟩

/-! ## Table filtering in src/migration/steps/pydb_metadata.py (lines 100-122) -/

/-- A reflected source table: its canonical name and the schema it belongs to. -/
structure SrcTable where
  sname : String
  schema : String
deriving DecidableEq

/-- The loop state: the selected tables and what is left of the include-tables
    and exclude-tables lists (the code removes each matched name from them). -/
structure FilterState where
  targetTables : List String
  includeLeft : List String
  excludeLeft : List String
deriving DecidableEq

/-- One iteration of the candidate loop (lines 104-114): the lowered table name
    is matched first against the include-tables list (select and remove), then
    against the exclude-tables list (remove only); otherwise the table is
    selected when no include list was given, it belongs to the source schema,
    and it is not a view filtered out by the process-views/process-mviews
    flags. -/
def filterStep (fromSchema : String) (plainViews matViews : List String)
    (processViews processMviews incl : Bool) (st : FilterState) (t : SrcTable) :
    FilterState :=
  if st.includeLeft.contains (pyLower t.sname) then
    ⟨st.targetTables ++ [t.sname], st.includeLeft.erase (pyLower t.sname), st.excludeLeft⟩
  else if st.excludeLeft.contains (pyLower t.sname) then
    ⟨st.targetTables, st.includeLeft, st.excludeLeft.erase (pyLower t.sname)⟩
  else if incl && (t.schema == fromSchema)
      && !(plainViews.contains (pyLower t.sname) && !processViews)
      && !(matViews.contains (pyLower t.sname) && !processMviews) then
    ⟨st.targetTables ++ [t.sname], st.includeLeft, st.excludeLeft⟩
  else st

/-- The state after the whole candidate loop. -/
def metadataFilterState (sourceTables : List SrcTable) (fromSchema : String)
    (plainViews matViews : List String) (processViews processMviews : Bool)
    (includeTables excludeTables : List String) : FilterState :=
  sourceTables.foldl
    (filterStep fromSchema plainViews matViews processViews processMviews
      includeTables.isEmpty)
    ⟨[], includeTables, excludeTables⟩

/-- Outcome of the filtering stage: the recorded errors, whether the migration
    was refused (the success branch never entered), and the selected tables. -/
structure MetaFilterOut where
  errs : List Err
  refused : Bool
  targetTables : List String
deriving DecidableEq

/-- Lines 100-122 of pydb_metadata.migrate_metadata: fold the candidate loop over
    the reflected tables, then, if any include/exclude names are left over,
    append error 142 naming them (",".join) and refuse the migration; otherwise
    continue with the selected tables. -/
def metadataFilter (sourceTables : List SrcTable) (fromSchema : String)
    (plainViews matViews : List String) (processViews processMviews : Bool)
    (includeTables excludeTables : List String) : MetaFilterOut :=
  if (metadataFilterState sourceTables fromSchema plainViews matViews processViews
        processMviews includeTables excludeTables).includeLeft ≠ []
      ∨ (metadataFilterState sourceTables fromSchema plainViews matViews processViews
        processMviews includeTables excludeTables).excludeLeft ≠ [] then
    ⟨[⟨142, pyJoin (",")
        ((metadataFilterState sourceTables fromSchema plainViews matViews processViews
            processMviews includeTables excludeTables).includeLeft
          ++ (metadataFilterState sourceTables fromSchema plainViews matViews processViews
            processMviews includeTables excludeTables).excludeLeft)
        ++ (": not found in source schema")⟩], true, []⟩
  else
    ⟨[], false,
      (metadataFilterState sourceTables fromSchema plainViews matViews processViews
        processMviews includeTables excludeTables).targetTables⟩

/-- A name matching no reflected table (case-insensitively) survives the
    candidate loop in whichever of the two leftover lists it started in. -/
theorem filterStep_preserves_missing (fromSchema : String)
    (plainViews matViews : List String) (processViews processMviews incl : Bool)
    (mnm : String) :
    ∀ (ts : List SrcTable) (st : FilterState),
      (∀ t ∈ ts, pyLower t.sname ≠ mnm) →
      mnm ∈ st.includeLeft ++ st.excludeLeft →
      mnm ∈ (ts.foldl
          (filterStep fromSchema plainViews matViews processViews processMviews incl)
          st).includeLeft
        ++ (ts.foldl
          (filterStep fromSchema plainViews matViews processViews processMviews incl)
          st).excludeLeft := by
  intro ts
  induction ts with
  | nil => intro st _ hm; simpa using hm
  | cons t ts ih =>
    intro st hne hm
    have hmt : pyLower t.sname ≠ mnm := hne t (by simp)
    have hne2 : ∀ u ∈ ts, pyLower u.sname ≠ mnm := fun u hu => hne u (by simp [hu])
    refine ih _ hne2 ?_
    rcases List.mem_append.mp hm with hmi | hme
    · unfold filterStep
      split
      · simp [List.mem_append,
          (List.mem_erase_of_ne (fun h => hmt h.symm)).mpr hmi]
      · split
        · simp [List.mem_append, hmi]
        · split
          · simp [List.mem_append, hmi]
          · simp [List.mem_append, hmi]
    · unfold filterStep
      split
      · simp [List.mem_append, hme]
      · split
        · simp [List.mem_append,
            (List.mem_erase_of_ne (fun h => hmt h.symm)).mpr hme]
        · split
          · simp [List.mem_append, hme]
          · simp [List.mem_append, hme]

/-- Joining a list containing a given string yields a string with that member as
    a substring, exhibited by the surrounding pieces. -/
theorem pyJoin_mem_substring (mnm : String) :
    ∀ (l : List String), mnm ∈ l → ∃ p q, pyJoin (",") l = p ++ mnm ++ q := by
  intro l
  induction l with
  | nil => intro h; simp at h
  | cons x xs ihx =>
    intro h
    rcases List.mem_cons.mp h with rfl | hxs
    · cases xs with
      | nil => exact ⟨(""), (""), by simp [pyJoin]⟩
      | cons y ys =>
        refine ⟨(""), (",") ++ pyJoin (",") (y :: ys), ?_⟩
        simp [pyJoin, String.append_assoc]
    · cases xs with
      | nil => simp at hxs
      | cons y ys =>
        obtain ⟨p, q, hpq⟩ := ihx hxs
        refine ⟨x ++ (",") ++ p, q, ?_⟩
        simp only [pyJoin, hpq]
        simp [String.append_assoc]

/-- C6: when some name in a non-empty include-tables or exclude-tables list
    matches no reflected table of the source schema, the filtering stage records
    a single validation error with code 142 whose message names that table, the
    migration is refused, and no table is selected for migration. -/
theorem c6_unknown_listed_table_refused (sourceTables : List SrcTable)
    (fromSchema : String) (plainViews matViews : List String)
    (processViews processMviews : Bool) (includeTables excludeTables : List String)
    (mnm : String) (hmem : mnm ∈ includeTables ++ excludeTables)
    (hmiss : ∀ t ∈ sourceTables, pyLower t.sname ≠ mnm) :
    (metadataFilter sourceTables fromSchema plainViews matViews processViews
        processMviews includeTables excludeTables).refused = true
      ∧ (metadataFilter sourceTables fromSchema plainViews matViews processViews
          processMviews includeTables excludeTables).targetTables = []
      ∧ ∃ e, (metadataFilter sourceTables fromSchema plainViews matViews processViews
            processMviews includeTables excludeTables).errs = [e]
          ∧ e.code = 142 ∧ ∃ p q, e.msg = p ++ mnm ++ q := by
  have hsurv := filterStep_preserves_missing fromSchema plainViews matViews
    processViews processMviews includeTables.isEmpty mnm sourceTables
    ⟨[], includeTables, excludeTables⟩ hmiss hmem
  have hsurv2 : mnm ∈ (metadataFilterState sourceTables fromSchema plainViews matViews
        processViews processMviews includeTables excludeTables).includeLeft
      ++ (metadataFilterState sourceTables fromSchema plainViews matViews
        processViews processMviews includeTables excludeTables).excludeLeft := hsurv
  have hne : (metadataFilterState sourceTables fromSchema plainViews matViews
        processViews processMviews includeTables excludeTables).includeLeft ≠ []
      ∨ (metadataFilterState sourceTables fromSchema plainViews matViews
        processViews processMviews includeTables excludeTables).excludeLeft ≠ [] := by
    rcases List.mem_append.mp hsurv2 with h | h
    · exact Or.inl (List.ne_nil_of_mem h)
    · exact Or.inr (List.ne_nil_of_mem h)
  obtain ⟨p, q, hpq⟩ := pyJoin_mem_substring mnm _ hsurv2
  unfold metadataFilter
  rw [if_pos hne]
  refine ⟨rfl, rfl, ⟨_, rfl, rfl, p, q ++ (": not found in source schema"), ?_⟩⟩
  simp only [hpq]
  simp [String.append_assoc]

/-- Witness for C6: include list ["ghost"] against a schema containing only t1. -/
theorem c6_unknown_listed_table_refused_witness :
    ((("ghost") : String) ∈ ([("ghost")] : List String) ++ ([] : List String)
      ∧ ∀ t ∈ ([⟨("t1"), ("pub")⟩] : List SrcTable), pyLower t.sname ≠ ("ghost"))
    ∧ ((metadataFilter [⟨("t1"), ("pub")⟩] ("pub") [] [] false false
          [("ghost")] []).refused = true
        ∧ (metadataFilter [⟨("t1"), ("pub")⟩] ("pub") [] [] false false
          [("ghost")] []).targetTables = []
        ∧ ∃ e, (metadataFilter [⟨("t1"), ("pub")⟩] ("pub") [] [] false false
              [("ghost")] []).errs = [e]
            ∧ e.code = 142 ∧ ∃ p q, e.msg = p ++ ("ghost") ++ q) :=
  ⟨⟨by decide, by decide⟩,
    c6_unknown_listed_table_refused [⟨("t1"), ("pub")⟩] ("pub") [] [] false false
      [("ghost")] [] ("ghost") (by decide) (by decide)⟩

/-! ## View-script rewriting in migrate_view (pydb_metadata.py lines 229-239)

The script transformation is character-level, so it is modelled on List Char.
Python str.replace substitutes every non-overlapping occurrence of the pattern,
scanning left to right; pyReplaceF is that scan, fuel-indexed to stay
structural (fuel s.length is always sufficient because every step consumes at
least one character). -/

set_option linter.unusedSectionVars false

section Replace

variable {α : Type} [DecidableEq α]

/-- Python str.replace, left-to-right, non-overlapping, fuel-indexed. -/
def pyReplaceF (pat rep : List α) : Nat → List α → List α
  | 0, s => s
  | _ + 1, [] => []
  | fuel + 1, c :: cs =>
    if pat ≠ [] ∧ pat <+: (c :: cs) then
      rep ++ pyReplaceF pat rep fuel ((c :: cs).drop pat.length)
    else
      c :: pyReplaceF pat rep fuel cs

/-- Python str.replace (for the non-empty patterns used by migrate_view). -/
def pyReplace (pat rep s : List α) : List α := pyReplaceF pat rep s.length s

/-- A prefix of a concatenation either stays within the first part or swallows
    it whole. -/
theorem prefix_append_split {q a b : List α} (h : q <+: a ++ b) :
    q <+: a ∨ ∃ q2, q = a ++ q2 ∧ q2 <+: b := by
  by_cases hl : q.length ≤ a.length
  · exact Or.inl (List.prefix_of_prefix_length_le h (List.prefix_append a b) hl)
  · right
    have ha : a <+: q :=
      List.prefix_of_prefix_length_le (List.prefix_append a b) h (by omega)
    obtain ⟨q2, rfl⟩ := ha
    refine ⟨q2, rfl, ?_⟩
    obtain ⟨t, ht⟩ := h
    rw [List.append_assoc] at ht
    exact ⟨t, List.append_cancel_left ht⟩

/-- An infix of a concatenation lies in the first part, lies in the second part,
    or spans the border with a non-empty piece on each side. -/
theorem infix_append_split {l a b : List α} (h : l <:+: a ++ b) :
    l <:+: a ∨ l <:+: b
      ∨ ∃ t1 t2, l = t1 ++ t2 ∧ t1 ≠ [] ∧ t2 ≠ [] ∧ t1 <:+ a ∧ t2 <+: b := by
  obtain ⟨u, v, huv⟩ := h
  by_cases hu : a.length ≤ u.length
  · have hupre : u <+: a ++ b := ⟨l ++ v, by rw [← huv]; simp [List.append_assoc]⟩
    have hau : a <+: u := List.prefix_of_prefix_length_le (List.prefix_append a b) hupre hu
    obtain ⟨u2, rfl⟩ := hau
    refine Or.inr (Or.inl ⟨u2, v, ?_⟩)
    have h2 : a ++ (u2 ++ l ++ v) = a ++ b := by
      rw [← huv]; simp [List.append_assoc]
    exact List.append_cancel_left h2
  · have hupre : u <+: a ++ b := ⟨l ++ v, by rw [← huv]; simp [List.append_assoc]⟩
    have hua : u <+: a :=
      List.prefix_of_prefix_length_le hupre (List.prefix_append a b) (by omega)
    obtain ⟨a2, ha2⟩ := hua
    have ha2ne : a2 ≠ [] := by
      intro h0
      rw [h0, List.append_nil] at ha2
      exact hu (by rw [ha2])
    have hlv : l ++ v = a2 ++ b := by
      have h3 : u ++ (l ++ v) = u ++ (a2 ++ b) := by
        rw [← List.append_assoc, huv, ← ha2, List.append_assoc]
      exact List.append_cancel_left h3
    by_cases hl2 : l.length ≤ a2.length
    · have hla : l <+: a2 :=
        List.prefix_of_prefix_length_le (⟨v, hlv⟩ : l <+: a2 ++ b) ⟨b, rfl⟩ hl2
      obtain ⟨w, hw⟩ := hla
      exact Or.inl ⟨u, w, by rw [← ha2, ← hw]; simp [List.append_assoc]⟩
    · have ha2l : a2 <+: l :=
        List.prefix_of_prefix_length_le (⟨b, hlv.symm⟩ : a2 <+: l ++ v)
          (⟨v, rfl⟩ : l <+: l ++ v) (by omega)
      obtain ⟨t2, ht2⟩ := ha2l
      refine Or.inr (Or.inr ⟨a2, t2, ht2.symm, ha2ne, ?_, ⟨u, ha2⟩, ?_⟩)
      · intro h0
        rw [h0, List.append_nil] at ht2
        exact hl2 (by rw [ht2])
      · have h4 : a2 ++ (t2 ++ v) = a2 ++ b := by
          rw [← List.append_assoc, ht2, hlv]
        exact ⟨v, List.append_cancel_left h4⟩

/-- A suffix of l ++ [a] is empty or has the shape u ++ [a] with u a suffix
    of l. -/
theorem suffix_concat_split {q l : List α} {a : α} (h : q <:+ l ++ [a]) :
    q = [] ∨ ∃ u, u <:+ l ∧ q = u ++ [a] := by
  rcases q.eq_nil_or_concat' with rfl | ⟨q2, b, rfl⟩
  · exact Or.inl rfl
  · obtain ⟨w, hw⟩ := h
    rw [← List.append_assoc] at hw
    obtain ⟨h1, h2⟩ := List.append_inj' hw rfl
    obtain ⟨rfl⟩ : b = a := by simpa using h2
    exact Or.inr ⟨q2, ⟨w, h1⟩, rfl⟩

/-- With a terminal marker not occurring in l, a marked prefix of a marked list
    pins down the body: u ++ [a] <+: l ++ [a] forces u = l. -/
theorem prefix_marker_eq {u l : List α} {a : α} (hal : a ∉ l)
    (h : u ++ [a] <+: l ++ [a]) : u = l := by
  obtain ⟨t, ht⟩ := h
  rcases t.eq_nil_or_concat' with rfl | ⟨t2, b, rfl⟩
  · rw [List.append_nil] at ht
    exact (List.append_inj' ht rfl).1
  · simp only [← List.append_assoc] at ht
    obtain ⟨h1, h2⟩ := List.append_inj' ht rfl
    exact absurd (h1 ▸ (by simp : a ∈ u ++ [a] ++ t2)) hal

/-- With a terminal marker not occurring in l, a marked infix of a marked list
    has its body as a suffix of the body: u ++ [a] <:+: l ++ [a] forces
    u <:+ l. -/
theorem infix_marker_suffix {u l : List α} {a : α} (hal : a ∉ l)
    (h : u ++ [a] <:+: l ++ [a]) : u <:+ l := by
  obtain ⟨w, v, hwv⟩ := h
  rcases v.eq_nil_or_concat' with rfl | ⟨v2, b, rfl⟩
  · rw [List.append_nil, ← List.append_assoc] at hwv
    exact ⟨w, (List.append_inj' hwv rfl).1⟩
  · simp only [← List.append_assoc] at hwv
    exact absurd ((List.append_inj' hwv rfl).1 ▸ (by simp : a ∈ w ++ u ++ [a] ++ v2)) hal

/-- A non-empty suffix of l ++ [a] contains the marker. -/
theorem suffix_concat_mem {q l : List α} {a : α} (h : q <:+ l ++ [a]) (hq : q ≠ []) :
    a ∈ q := by
  rcases suffix_concat_split h with rfl | ⟨u, _, rfl⟩
  · exact absurd rfl hq
  · simp

end Replace

section ReplaceLemmas

variable {α : Type} [DecidableEq α]

/-- Splitting a cons prefix of a cons. -/
theorem cons_prefix_split {a b : α} {l1 l2 : List α} (h : a :: l1 <+: b :: l2) :
    a = b ∧ l1 <+: l2 := by
  obtain ⟨t, ht⟩ := h
  simp only [List.cons_append] at ht
  obtain ⟨h1, h2⟩ := List.cons.inj ht
  exact ⟨h1, ⟨t, h2⟩⟩

/-- Tracking lemma: under the border conditions below, a non-empty proper suffix
    of the pattern that is a prefix of the replaced output was already a prefix
    of the input (replacement cannot manufacture one). -/
theorem pyReplaceF_prefix_track {pat rep : List α}
    (hSufPre : ∀ q, q <:+ pat → q ≠ [] → q ≠ pat → ¬ q <+: rep)
    (hRepPre : ∀ q, q <:+ pat → q ≠ pat → ¬ rep <+: q) :
    ∀ (fuel : Nat) (s q : List α), q <:+ pat → q ≠ [] → q ≠ pat →
      q <+: pyReplaceF pat rep fuel s → q <+: s := by
  intro fuel
  induction fuel with
  | zero => intro s q _ _ _ hq; simpa [pyReplaceF] using hq
  | succ fl ih =>
    intro s q hsuf hqne hqnp hq
    cases s with
    | nil =>
      simp only [pyReplaceF, List.prefix_nil] at hq
      exact absurd hq hqne
    | cons c cs =>
      simp only [pyReplaceF] at hq
      split at hq
      · rcases prefix_append_split hq with hqr | ⟨q2, rfl, _⟩
        · exact absurd hqr (hSufPre _ hsuf hqne hqnp)
        · exact absurd ⟨q2, rfl⟩ (hRepPre _ hsuf hqnp)
      · cases q with
        | nil => exact absurd rfl hqne
        | cons qc q2 =>
          obtain ⟨rfl, hq2⟩ := cons_prefix_split hq
          cases q2 with
          | nil => exact ⟨cs, rfl⟩
          | cons d q3 =>
            have hsuf2 : d :: q3 <:+ pat := by
              obtain ⟨w, hw⟩ := hsuf
              exact ⟨w ++ [qc], by simp [← hw]⟩
            have hnp2 : d :: q3 ≠ pat := by
              intro h0
              have hl1 : (qc :: d :: q3).length ≤ pat.length := hsuf.length_le
              rw [← h0] at hl1
              simp at hl1
            have := ih cs (d :: q3) hsuf2 (by simp) hnp2 hq2
            obtain ⟨t, ht⟩ := this
            exact ⟨t, by simp [← ht]⟩

/-- Main lemma: under the border conditions below, the pattern does not occur in
    the replaced output at all. -/
theorem pyReplaceF_no_occurrence {pat rep : List α}
    (hne : pat ≠ [])
    (hSufPre : ∀ q, q <:+ pat → q ≠ [] → q ≠ pat → ¬ q <+: rep)
    (hRepPre : ∀ q, q <:+ pat → q ≠ pat → ¬ rep <+: q)
    (hInfix : ¬ pat <:+: rep)
    (hSpan : ∀ t, t <:+ rep → t ≠ [] → t ≠ pat → ¬ t <+: pat) :
    ∀ (fuel : Nat) (s : List α), s.length ≤ fuel →
      ¬ pat <:+: pyReplaceF pat rep fuel s := by
  intro fuel
  induction fuel with
  | zero =>
    intro s hs
    have : s = [] := List.eq_nil_of_length_eq_zero (by omega)
    subst this
    simp [pyReplaceF, List.infix_nil, hne]
  | succ fl ih =>
    intro s hs
    cases s with
    | nil => simp [pyReplaceF, List.infix_nil, hne]
    | cons c cs =>
      simp only [pyReplaceF]
      split
      · rename_i hmatch
        intro hocc
        rcases infix_append_split hocc with hr | hR | ⟨t1, t2, heq, ht1ne, ht2ne, ht1suf, ht2pre⟩
        · exact hInfix hr
        · have hplen : 1 ≤ pat.length := by
            cases pat with
            | nil => exact absurd rfl hne
            | cons p ps => simp
          have hlen : ((c :: cs).drop pat.length).length ≤ fl := by
            simp only [List.length_drop]
            simp only [List.length_cons] at hs ⊢
            omega
          exact ih _ hlen hR
        · have ht1pre : t1 <+: pat := ⟨t2, heq.symm⟩
          have ht1np : t1 ≠ pat := by
            intro h0
            have hlen := congrArg List.length heq
            rw [h0] at hlen
            simp only [List.length_append] at hlen
            exact ht2ne (List.eq_nil_of_length_eq_zero (by omega))
          exact hSpan t1 ht1suf ht1ne ht1np ht1pre
      · rename_i hnomatch
        intro hocc
        rw [List.infix_cons_iff] at hocc
        rcases hocc with hpre | hR
        · cases pat with
          | nil => exact absurd rfl hne
          | cons p ps =>
            obtain ⟨rfl, hps⟩ := cons_prefix_split hpre
            cases ps with
            | nil => exact hnomatch ⟨hne, ⟨cs, rfl⟩⟩
            | cons d ds =>
              have hsuf2 : d :: ds <:+ p :: d :: ds := ⟨[p], rfl⟩
              have hnp2 : d :: ds ≠ p :: d :: ds := by
                intro h0
                have := congrArg List.length h0
                simp at this
              have := pyReplaceF_prefix_track hSufPre hRepPre fl cs (d :: ds)
                hsuf2 (by simp) hnp2 hps
              obtain ⟨t, ht⟩ := this
              exact hnomatch ⟨hne, ⟨t, by simp [← ht]⟩⟩
        · have : cs.length ≤ fl := by
            simp only [List.length_cons] at hs
            omega
          exact ih cs this hR

end ReplaceLemmas

section ReplacePreserve

variable {α : Type} [DecidableEq α]

/-- Tracking lemma for a FOREIGN pattern fpat: under the border conditions
    below, any non-empty suffix of fpat that is a prefix of the output of
    replacing pat by rep was already a prefix of the input. -/
theorem pyReplaceF_foreign_prefix_track {pat rep fpat : List α}
    (hK3 : ∀ q, q <:+ fpat → q ≠ [] → ¬ q <+: rep)
    (hK4 : ¬ rep <:+: fpat) :
    ∀ (fuel : Nat) (s q : List α), q <:+ fpat → q ≠ [] →
      q <+: pyReplaceF pat rep fuel s → q <+: s := by
  intro fuel
  induction fuel with
  | zero => intro s q _ _ hq; simpa [pyReplaceF] using hq
  | succ fl ih =>
    intro s q hsuf hqne hq
    cases s with
    | nil =>
      simp only [pyReplaceF, List.prefix_nil] at hq
      exact absurd hq hqne
    | cons c cs =>
      simp only [pyReplaceF] at hq
      split at hq
      · rcases prefix_append_split hq with hqr | ⟨q2, rfl, _⟩
        · exact absurd hqr (hK3 _ hsuf hqne)
        · exact absurd (List.IsInfix.trans (List.prefix_append rep q2).isInfix
            hsuf.isInfix) hK4
      · cases q with
        | nil => exact absurd rfl hqne
        | cons qc q2 =>
          obtain ⟨rfl, hq2⟩ := cons_prefix_split hq
          cases q2 with
          | nil => exact ⟨cs, rfl⟩
          | cons d q3 =>
            have hsuf2 : d :: q3 <:+ fpat := by
              obtain ⟨w, hw⟩ := hsuf
              exact ⟨w ++ [qc], by simp [← hw]⟩
            have := ih cs (d :: q3) hsuf2 (by simp) hq2
            obtain ⟨t, ht⟩ := this
            exact ⟨t, by simp [← ht]⟩

/-- Preservation lemma: replacing pat by rep cannot create an occurrence of a
    foreign pattern fpat that was not already in the input, under the border
    conditions below. -/
theorem pyReplaceF_foreign_no_occurrence {pat rep fpat : List α}
    (hfne : fpat ≠ []) (hpne : pat ≠ [])
    (hK1 : ¬ fpat <:+: rep)
    (hK2 : ∀ t, t <:+ rep → t ≠ [] → ¬ t <+: fpat)
    (hK3 : ∀ q, q <:+ fpat → q ≠ [] → ¬ q <+: rep)
    (hK4 : ¬ rep <:+: fpat) :
    ∀ (fuel : Nat) (s : List α), s.length ≤ fuel → ¬ fpat <:+: s →
      ¬ fpat <:+: pyReplaceF pat rep fuel s := by
  intro fuel
  induction fuel with
  | zero =>
    intro s hs hsin
    have : s = [] := List.eq_nil_of_length_eq_zero (by omega)
    subst this
    simp [pyReplaceF, List.infix_nil, hfne]
  | succ fl ih =>
    intro s hs hsin
    cases s with
    | nil => simp [pyReplaceF, List.infix_nil, hfne]
    | cons c cs =>
      simp only [pyReplaceF]
      split
      · rename_i hmatch
        intro hocc
        rcases infix_append_split hocc with hr | hR | ⟨t1, t2, heq, ht1ne, ht2ne, ht1suf, ht2pre⟩
        · exact hK1 hr
        · have hplen : 1 ≤ pat.length := by
            cases pat with
            | nil => exact absurd rfl hpne
            | cons p ps => simp
          have hlen : ((c :: cs).drop pat.length).length ≤ fl := by
            simp only [List.length_drop]
            simp only [List.length_cons] at hs ⊢
            omega
          have hsin2 : ¬ fpat <:+: (c :: cs).drop pat.length :=
            fun h0 => hsin (h0.trans (List.drop_suffix pat.length (c :: cs)).isInfix)
          exact ih _ hlen hsin2 hR
        · exact hK2 t1 ht1suf ht1ne ⟨t2, heq.symm⟩
      · rename_i hnomatch
        intro hocc
        rw [List.infix_cons_iff] at hocc
        rcases hocc with hpre | hR
        · cases fpat with
          | nil => exact absurd rfl hfne
          | cons p ps =>
            obtain ⟨rfl, hps⟩ := cons_prefix_split hpre
            cases ps with
            | nil => exact hsin (List.IsPrefix.isInfix ⟨cs, rfl⟩)
            | cons d ds =>
              have hsuf2 : d :: ds <:+ p :: d :: ds := ⟨[p], rfl⟩
              have := pyReplaceF_foreign_prefix_track hK3 hK4 fl cs (d :: ds)
                hsuf2 (by simp) hps
              obtain ⟨t, ht⟩ := this
              exact hsin (List.IsPrefix.isInfix ⟨t, by simp [← ht]⟩)
        · have hlen : cs.length ≤ fl := by
            simp only [List.length_cons] at hs
            omega
          have hsin2 : ¬ fpat <:+: cs :=
            fun h0 => hsin (h0.trans (List.IsSuffix.isInfix ⟨[c], rfl⟩))
          exact ih cs hlen hsin2 hR

end ReplacePreserve

section MarkerShapes

variable {α : Type} [DecidableEq α]

/-- No non-empty suffix of A ++ [d] is a prefix of B ++ [d] when d avoids both
    bodies and B is not a suffix of A. -/
theorem marker_sufpre {A B : List α} {d : α} (hdB : d ∉ B) (hBA : ¬ B <:+ A) :
    ∀ q, q <:+ A ++ [d] → q ≠ [] → ¬ q <+: B ++ [d] := by
  intro q hs hne hpre
  rcases suffix_concat_split hs with rfl | ⟨u, hu, rfl⟩
  · exact hne rfl
  · have := prefix_marker_eq hdB hpre
    subst this
    exact hBA hu

/-- B ++ [d] is not a prefix of any suffix of A ++ [d] when d avoids A and B is
    not a suffix of A. -/
theorem marker_reppre {A B : List α} {d : α} (hdA : d ∉ A) (hBA : ¬ B <:+ A) :
    ∀ q, q <:+ A ++ [d] → ¬ (B ++ [d]) <+: q := by
  intro q hs hpre
  rcases suffix_concat_split hs with rfl | ⟨u, hu, rfl⟩
  · simp [List.prefix_nil] at hpre
  · have hdu : d ∉ u := fun h0 => hdA (hu.sublist.subset h0)
    have := prefix_marker_eq hdu hpre
    subst this
    exact hBA hu

/-- A ++ [d] does not occur inside B ++ [d] when d avoids B and A is not a
    suffix of B. -/
theorem marker_absent {A B : List α} {d : α} (hdB : d ∉ B) (hAB : ¬ A <:+ B) :
    ¬ (A ++ [d]) <:+: (B ++ [d]) :=
  fun h => hAB (infix_marker_suffix hdB h)

/-- No non-empty suffix of B ++ [d] is a prefix of A ++ [d] when d avoids A and
    A is not a suffix of B. -/
theorem marker_span {A B : List α} {d : α} (hdA : d ∉ A) (hAB : ¬ A <:+ B) :
    ∀ t, t <:+ B ++ [d] → t ≠ [] → ¬ t <+: A ++ [d] := by
  intro t hts htne hpre
  rcases suffix_concat_split hts with rfl | ⟨u, hu, rfl⟩
  · exact htne rfl
  · have := prefix_marker_eq hdA hpre
    subst this
    exact hAB hu

/-- Quote-delimited bodies are not suffixes of each other unless the raw names
    are: the quote character pins the borders. -/
theorem quoted_not_suffix {src tgt : List α} {qc : α}
    (hq2 : qc ∉ tgt) (hst : ¬ src <:+ tgt) :
    ¬ ([qc] ++ src ++ [qc]) <:+ ([qc] ++ tgt ++ [qc]) := by
  rintro ⟨w, hw⟩
  simp only [← List.append_assoc] at hw
  have h1 := (List.append_inj' hw rfl).1
  cases w with
  | nil =>
    simp only [List.nil_append] at h1
    have : src = tgt := by simpa using h1
    exact hst (this ▸ List.suffix_refl src)
  | cons c w2 =>
    simp only [List.cons_append] at h1
    obtain ⟨rfl, h3⟩ := List.cons.inj h1
    simp only [List.nil_append] at h3
    exact hq2 (h3 ▸ (by simp : c ∈ w2 ++ [c] ++ src))

end MarkerShapes

/-- The double-quote character. -/
def quotChar : Char := Char.ofNat 34

/-- Python str.lower over a character list. -/
def lowerChars (s : List Char) : List Char := s.map Char.toLower

/-- The quoted schema body "schema" (with double quotes). -/
def quotedBody (schema : List Char) : List Char := [quotChar] ++ schema ++ [quotChar]

/-- The Oracle-specific clause purged by migrate_view after lowercasing. -/
def feClause : List Char := ("force editionable ").toList

/-- migrate_view lines 232-233: lowercase the retrieved script, then replace the
    unquoted source-schema prefix and then the quoted one by the target-schema
    forms (Python str.replace, left-to-right, non-overlapping). -/
def rewriteCore (script src tgt : List Char) : List Char :=
  pyReplace (quotedBody src ++ [('.')]) (quotedBody tgt ++ [('.')])
    (pyReplace (src ++ [('.')]) (tgt ++ [('.')]) (lowerChars script))

/-- migrate_view lines 232-236: the full script transformation, stripping the
    "force editionable " clause afterwards when the source engine is Oracle. -/
def rewriteViewScript (script src tgt : List Char) (oracle : Bool) : List Char :=
  if oracle then pyReplace feClause [] (rewriteCore script src tgt)
  else rewriteCore script src tgt

/-- C8 counterexample: migrate_view is called with source_schema carrying the
    catalog's case imprint (from_schema), but it lowercases the script before
    replacing the literal forms.  For the retrieved script "SELECT A FROM
    DOCS.T" with source schema DOCS and target schema public, the occurrence of
    the unquoted source-schema prefix "DOCS." in the retrieved script is NOT
    rewritten to the target schema: the executed script is just the lowercased
    original and contains no "public." at all. -/
theorem c8_counterexample :
    rewriteViewScript (("SELECT A FROM DOCS.T").toList) (("DOCS").toList)
        (("public").toList) false
      = (("select a from docs.t").toList)
    ∧ (("DOCS").toList ++ [('.')]) <:+: (("SELECT A FROM DOCS.T").toList)
    ∧ ¬ (("public").toList ++ [('.')]) <:+:
        rewriteViewScript (("SELECT A FROM DOCS.T").toList) (("DOCS").toList)
          (("public").toList) false := by
  decide

/-- C8 amended: the retrieved script is first lowercased and the replacement
    targets the lowercase literal forms, so occurrences are rewritten only for
    the source-schema string as passed (an upper-case source schema is left
    unrewritten, per the counterexample).  For schema names that are non-empty
    and contain no dot and no double quote, with neither name a suffix of the
    other, the rewritten script contains no occurrence of the unquoted form
    <src>. nor of the quoted form "<src>". ; without Oracle the executed script
    is exactly that rewriting, and with Oracle the lowercased clause
    "force editionable " is additionally stripped, as on the concrete Oracle
    script shown. -/
theorem c8_rewritten_script_free_of_source_schema (src tgt : List Char)
    (hsrcne : src ≠ []) (hds : ('.') ∉ src) (hdt : ('.') ∉ tgt)
    (hqs : quotChar ∉ src) (hqt : quotChar ∉ tgt)
    (hst : ¬ src <:+ tgt) (hts : ¬ tgt <:+ src) :
    (∀ script, ¬ (src ++ [('.')]) <:+: rewriteCore script src tgt)
    ∧ (∀ script, ¬ (quotedBody src ++ [('.')]) <:+: rewriteCore script src tgt)
    ∧ (∀ script, rewriteViewScript script src tgt false = rewriteCore script src tgt)
    ∧ rewriteViewScript
        (("CREATE OR REPLACE FORCE EDITIONABLE VIEW DOCS.V AS SELECT C FROM DOCS.T, \"DOCS\".U").toList)
        (("docs").toList) (("pub").toList) true
      = (("create or replace view pub.v as select c from pub.t, \"pub\".u").toList) := by
  have hdq : ('.') ≠ quotChar := by decide
  have hdB2t : ('.') ∉ quotedBody tgt := by
    intro h
    simp only [quotedBody, List.mem_append, List.mem_singleton] at h
    rcases h with (h | h) | h
    · exact hdq h
    · exact hdt h
    · exact hdq h
  have hdA2s : ('.') ∉ quotedBody src := by
    intro h
    simp only [quotedBody, List.mem_append, List.mem_singleton] at h
    rcases h with (h | h) | h
    · exact hdq h
    · exact hds h
    · exact hdq h
  have hFB2 : ¬ src <:+ quotedBody tgt := by
    intro h
    have h2 : src <:+ ([quotChar] ++ tgt) ++ [quotChar] := by
      simpa [quotedBody, List.append_assoc] using h
    exact hqs (suffix_concat_mem h2 hsrcne)
  have hB2F : ¬ quotedBody tgt <:+ src := by
    intro h
    exact hqs (h.sublist.subset (by simp [quotedBody]))
  have hA2B2 : ¬ quotedBody src <:+ quotedBody tgt := quoted_not_suffix hqt hst
  have hB2A2 : ¬ quotedBody tgt <:+ quotedBody src := quoted_not_suffix hqs hts
  have step1 : ∀ script, ¬ (src ++ [('.')]) <:+:
      pyReplace (src ++ [('.')]) (tgt ++ [('.')]) (lowerChars script) := by
    intro script
    exact pyReplaceF_no_occurrence (by simp)
      (fun q hs hn _ => marker_sufpre hdt hts q hs hn)
      (fun q hs _ => marker_reppre hds hts q hs)
      (marker_absent hdt hst)
      (fun t ht hn _ => marker_span hds hst t ht hn)
      _ _ (le_refl _)
  refine ⟨?_, ?_, fun script => rfl, by decide⟩
  · intro script
    exact pyReplaceF_foreign_no_occurrence (by simp) (by simp [quotedBody])
      (marker_absent hdB2t hFB2)
      (marker_span hds hFB2)
      (fun q hs hn => marker_sufpre hdB2t hB2F q hs hn)
      (marker_absent hds hB2F)
      _ _ (le_refl _) (step1 script)
  · intro script
    exact pyReplaceF_no_occurrence (by simp [quotedBody])
      (fun q hs hn _ => marker_sufpre hdB2t hB2A2 q hs hn)
      (fun q hs _ => marker_reppre hdA2s hB2A2 q hs)
      (marker_absent hdB2t hA2B2)
      (fun t ht hn _ => marker_span hdA2s hA2B2 t ht hn)
      _ _ (le_refl _)

/-- Witness for the amended C8 at schemas docs and pub on a concrete script. -/
theorem c8_rewritten_script_free_of_source_schema_witness :
    ((("docs").toList ≠ [] ∧ ('.') ∉ ("docs").toList ∧ ('.') ∉ ("pub").toList
        ∧ quotChar ∉ ("docs").toList ∧ quotChar ∉ ("pub").toList
        ∧ ¬ ("docs").toList <:+ ("pub").toList ∧ ¬ ("pub").toList <:+ ("docs").toList))
    ∧ ¬ ((("docs").toList) ++ [('.')]) <:+:
        rewriteCore (("SELECT A FROM DOCS.T").toList) (("docs").toList) (("pub").toList) :=
  ⟨⟨by decide, by decide, by decide, by decide, by decide, by decide, by decide⟩,
    (c8_rewritten_script_free_of_source_schema (("docs").toList) (("pub").toList)
      (by decide) (by decide) (by decide) (by decide) (by decide) (by decide)
      (by decide)).1 (("SELECT A FROM DOCS.T").toList)⟩
